import Mathlib

/-!
Verification of the camera acquisition and frame-delivery pipeline of the
PyQt-ANPR repository (`camera_thread.py`, `ANPR_GUI_Complete.py`).

The pipeline is embedded shallowly:

* `World` models the OpenCV environment: which sources `cv2.VideoCapture`
  can open, and the list of frames a source yields before `read()` fails.
* `Cap` models a `cv2.VideoCapture` object (handle id, `isOpened()`,
  remaining frames).  Only an *opened* capture holds an OS device handle,
  so `acquire`/`release` events fire only for opened captures
  (`release()` on an unopened capture is a no-op at the device level).
* `CameraThread` mirrors the Python class of the same name: `running`
  flag, optional capture, source, plus `threadActive`, which models
  whether the QThread's `run()` method is currently executing
  (`QThread.isRunning()`).
* The `run` method is given fuel semantics: `CameraThread.run ct fuel`
  executes up to `fuel` iterations of the `while self.running and
  self.cap is not None` loop; when the condition turns false or a read
  fails, the code after the loop releases the capture and the thread
  exits.  Fuel lets every interleaving of `stop_streaming` with loop
  progress be expressed: the scheduler advances the loop some number of
  iterations between the caller's calls.
* `PSys` models `ANPRProcessor` (the GUI-side owner of the thread)
  together with a fresh-handle counter; `PSys.runCmds` interprets an
  arbitrary sequence of `start_stream` / `stop_stream` calls and
  scheduler steps, producing the observable event trace.

Every operation returns the list of observable events `Ev` it produces
(device handle acquire/release, property configuration, thread start,
frame signal emissions, error signal emissions), so ordering, counting
and resource claims are statements about these traces.
-/

/-- Source identifier passed to `CameraThread.set_source`: a camera
device index or a video file / stream path (`camera_thread.py`). -/
inductive Source where
  | device (i : Nat)
  | stream (url : String)
deriving DecidableEq, Repr

/-- Environment model for OpenCV: `openable s` is whether
`cv2.VideoCapture(s).isOpened()` holds, and `framesOf s` is the sequence
of frames successive `read()` calls yield before a read fails.  Frames
are identified by natural numbers. -/
structure World where
  openable : Source → Bool
  framesOf : Source → List Nat

/-- A `cv2.VideoCapture` object: a handle identifier, whether the open
succeeded (`isOpened()`), and the frames still to be read. -/
structure Cap where
  hid : Nat
  opened : Bool
  frames : List Nat
deriving DecidableEq, Repr

/-- `cv2.VideoCapture(s)`: constructing a capture for source `s`, using
`h` as the identity of the device handle it acquires if it opens. -/
def videoCapture (w : World) (s : Source) (h : Nat) : Cap :=
  { hid := h, opened := w.openable s, frames := w.framesOf s }

/-- Camera properties set by `start_streaming` via `cap.set`. -/
inductive CamProp where
  | frameWidth
  | frameHeight
  | fps
deriving DecidableEq, Repr

/-- Observable events of the pipeline.  `acquire`/`release` track the OS
device handle of an opened capture; `cfg` records a `cap.set` property
hint; `threadStart` records `self.start()` launching `run()` on the
worker thread; `frameRaw`/`frameQt` are the `frame_ready_raw` and
`frame_ready` signal emissions for a frame; `err` is an
`error_occurred` emission. -/
inductive Ev where
  | acquire (h : Nat)
  | release (h : Nat)
  | cfg (p : CamProp) (v : Nat)
  | threadStart
  | frameRaw (f : Nat)
  | frameQt (f : Nat)
  | err (msg : String)
deriving DecidableEq, Repr

/-- `cap.release()`: releases the OS device handle if the capture was
opened; releasing an unopened capture is a device-level no-op. -/
def Cap.releaseEv (c : Cap) : List Ev :=
  if c.opened then [Ev.release c.hid] else []

/-- State of a `CameraThread` object (`camera_thread.py`): the `running`
flag, the `cap` attribute, the `source` attribute, and whether the
QThread's `run()` is currently executing (`isRunning()`). -/
structure CameraThread where
  running : Bool
  cap : Option Cap
  source : Source
  threadActive : Bool
deriving DecidableEq, Repr

/-- `CameraThread.__init__`: `running = False`, `cap = None`,
`source = 0`, thread not started. -/
def CameraThread.init : CameraThread :=
  { running := false, cap := none, source := Source.device 0, threadActive := false }

/-- `CameraThread.set_source`. -/
def CameraThread.set_source (ct : CameraThread) (s : Source) : CameraThread :=
  { ct with source := s }

/-- The message of the `error_occurred` emission on open failure:
`f"Failed to open camera source: {self.source}"`. -/
def openFailMsg (s : Source) : String :=
  "Failed to open camera source: " ++
    (match s with
      | Source.device i => toString i
      | Source.stream u => u)

/-- The message of the `error_occurred` emission on read failure. -/
def readFailMsg : String := "Failed to read frame from camera."

/-- `CameraThread.start_streaming`: release any previous capture, open
the source; on open failure emit `error_occurred` and return `False`
(the unopened capture stays assigned to `self.cap`, the thread is not
started); on success set resolution/FPS hints via `cap.set` (whose
boolean results the code ignores), set `running`, start the thread and
return `True`.  `h` is the identity for the handle the new capture
acquires if it opens. -/
def CameraThread.start_streaming (w : World) (h : Nat) (ct : CameraThread) :
    CameraThread × List Ev × Bool :=
  let pre : List Ev :=
    match ct.cap with
    | some c => c.releaseEv
    | none => []
  let c := videoCapture w ct.source h
  if c.opened then
    ({ ct with cap := some c, running := true, threadActive := true },
      pre ++
        [Ev.acquire c.hid, Ev.cfg CamProp.frameWidth 1280,
         Ev.cfg CamProp.frameHeight 720, Ev.cfg CamProp.fps 30, Ev.threadStart],
      true)
  else
    ({ ct with cap := some c },
      pre ++ [Ev.err (openFailMsg ct.source)],
      false)

/-- `CameraThread.run`, the acquisition loop, with fuel semantics: the
`while self.running and self.cap is not None` condition is evaluated up
to `fuel` times while the body keeps running.  A successful read emits
`frame_ready_raw` then `frame_ready`; a failed read emits
`error_occurred` once and breaks; once the loop exits (break or false
condition) the code after the loop releases the capture, clears
`self.cap`, and the thread finishes.  With `fuel = 0` the thread is a
mid-loop snapshot (the scheduler has not let it progress); when the
thread is not active the call is a scheduler no-op. -/
def CameraThread.run (ct : CameraThread) : Nat → CameraThread × List Ev
  | 0 => (ct, [])
  | fuel + 1 =>
    if ct.threadActive then
      if ct.running then
        match ct.cap with
        | none => ({ ct with threadActive := false }, [])
        | some c =>
          match c.frames with
          | [] =>
            ({ ct with cap := none, threadActive := false },
              Ev.err readFailMsg :: c.releaseEv)
          | f :: rest =>
            let step := CameraThread.run { ct with cap := some { c with frames := rest } } fuel
            (step.1, Ev.frameRaw f :: Ev.frameQt f :: step.2)
      else
        match ct.cap with
        | none => ({ ct with threadActive := false }, [])
        | some c => ({ ct with cap := none, threadActive := false }, c.releaseEv)
    else (ct, [])

/-- `CameraThread.stop_streaming`: set `running = False`, `wait()` for
the thread — during which the loop observes the false condition at the
next iteration boundary, releases the capture and exits — then release
`self.cap` if it is still set (e.g. the unopened capture left by a
failed `start_streaming`). -/
def CameraThread.stop_streaming (ct : CameraThread) : CameraThread × List Ev :=
  let ct1 := { ct with running := false }
  let waited := if ct1.threadActive then ct1.run 1 else (ct1, [])
  match waited.1.cap with
  | none => waited
  | some c => ({ waited.1 with cap := none }, waited.2 ++ c.releaseEv)

/-- `CameraThread.get_available_cameras` body: for each index `i` of the
probe list, construct `cv2.VideoCapture(i)`; if it opened, record `i`
and release the probe handle.  Probe `i` uses handle identity `h0 + i`. -/
def probeLoop (w : World) (h0 : Nat) : List Nat → List Nat × List Ev
  | [] => ([], [])
  | i :: rest =>
    let c := videoCapture w (Source.device i) (h0 + i)
    let r := probeLoop w h0 rest
    if c.opened then
      (i :: r.1, Ev.acquire (h0 + i) :: Ev.release (h0 + i) :: r.2)
    else
      (r.1, r.2)

/-- `CameraThread.get_available_cameras`: probe device indices
`0` through `9` (`range(10)`) and return the indices that opened,
together with the probe event trace. -/
def CameraThread.get_available_cameras (w : World) (h0 : Nat) : List Nat × List Ev :=
  probeLoop w h0 (List.range 10)

/-- The fields of `ANPRProcessor` (`ANPR_GUI_Complete.py`) that the
pipeline and plate-generation claims depend on: the owned camera thread
and the plate template (`self.country_template`, initialised `"EU"`).
The remaining fields (confidence threshold, OCR flag, ROI) are
irrelevant to these operations. -/
structure ANPRProcessor where
  camera_thread : Option CameraThread
  country_template : String
deriving DecidableEq, Repr

/-- `ANPRProcessor.__init__` (pipeline-relevant fields). -/
def ANPRProcessor.init : ANPRProcessor :=
  { camera_thread := none, country_template := "EU" }

/-- The processor together with a counter supplying fresh handle
identities to successive opens. -/
structure PSys where
  proc : ANPRProcessor
  nextH : Nat
deriving DecidableEq, Repr

def PSys.init : PSys :=
  { proc := ANPRProcessor.init, nextH := 0 }

/-- `ANPRProcessor.start_stream(source)`: if a camera thread exists and
`isRunning()`, synchronously `stop_streaming()` it and drop it; then
create a fresh `CameraThread`, `set_source`, connect the signals, and
call `start_streaming` (whose boolean result the processor ignores);
returns `True`. -/
def PSys.start_stream (w : World) (s : PSys) (src : Source) : PSys × List Ev × Bool :=
  let stopEvs : List Ev :=
    match s.proc.camera_thread with
    | some ct => if ct.threadActive then (ct.stop_streaming).2 else []
    | none => []
  let ct0 := CameraThread.init.set_source src
  let started := ct0.start_streaming w s.nextH
  ({ proc := { s.proc with camera_thread := some started.1 }, nextH := s.nextH + 1 },
    stopEvs ++ started.2.1, true)

/-- `ANPRProcessor.stop_stream()`: if a camera thread exists and
`isRunning()`, `stop_streaming()` it and set `camera_thread = None`;
otherwise do nothing. -/
def PSys.stop_stream (s : PSys) : PSys × List Ev :=
  match s.proc.camera_thread with
  | some ct =>
    if ct.threadActive then
      ({ s with proc := { s.proc with camera_thread := none } }, (ct.stop_streaming).2)
    else (s, [])
  | none => (s, [])

/-- Scheduler step: let the owned camera thread's `run()` progress by up
to `fuel` loop iterations. -/
def PSys.advanceThread (s : PSys) (fuel : Nat) : PSys × List Ev :=
  match s.proc.camera_thread with
  | some ct =>
    let r := ct.run fuel
    ({ s with proc := { s.proc with camera_thread := some r.1 } }, r.2)
  | none => (s, [])

/-- Commands of a processor-level execution: the caller's
`start_stream`/`stop_stream` calls interleaved with scheduler steps that
let the acquisition loop progress. -/
inductive PCmd where
  | startStream (src : Source)
  | stopStream
  | runThread (fuel : Nat)
deriving DecidableEq, Repr

/-- One command of a processor-level execution. -/
def PSys.step (w : World) (s : PSys) : PCmd → PSys × List Ev
  | PCmd.startStream src =>
    let r := s.start_stream w src
    (r.1, r.2.1)
  | PCmd.stopStream => s.stop_stream
  | PCmd.runThread fuel => s.advanceThread fuel

/-- Interpret a command sequence, concatenating the event traces. -/
def PSys.runCmds (w : World) (s : PSys) : List PCmd → PSys × List Ev
  | [] => (s, [])
  | c :: cs =>
    let r := s.step w c
    let r2 := r.1.runCmds w cs
    (r2.1, r.2 ++ r2.2)

/-- Letter pool of `generate_random_plate`: the uppercase alphabet with
`I` and `O` removed. -/
def plateLetters : List Char := "ABCDEFGHJKLMNPQRSTUVWXYZ".toList

/-- Digit pool of `generate_random_plate`. -/
def plateDigits : List Char := "0123456789".toList

/-- `np.random.choice(pool, n)` starting at position `start` of the
random stream `rng`: pick `j` is `pool[rng (start + j) % pool.length]`.
The modulus models the choice being uniform over the pool; any stream
`rng` represents one possible draw. -/
def npChoice (pool : List Char) (rng : Nat → Nat) (start n : Nat) : List Char :=
  (List.range n).map (fun j => pool.getD (rng (start + j) % pool.length) 'A')

/-- `ANPRProcessor.generate_random_plate`, with the random draws
supplied by `rng`: EU = 3 letters, hyphen, 3 digits; US = 4 digits then
3 letters; otherwise 2 letters then 4 digits. -/
def ANPRProcessor.generate_random_plate (p : ANPRProcessor) (rng : Nat → Nat) : String :=
  if p.country_template = "EU" then
    let letters := String.mk (npChoice plateLetters rng 0 3)
    let numbers := String.mk (npChoice plateDigits rng 3 3)
    letters ++ "-" ++ numbers
  else if p.country_template = "US" then
    let letters := String.mk (npChoice plateLetters rng 0 3)
    let numbers := String.mk (npChoice plateDigits rng 3 4)
    numbers ++ letters
  else
    let letters := String.mk (npChoice plateLetters rng 0 2)
    let numbers := String.mk (npChoice plateDigits rng 2 4)
    letters ++ numbers

/-! ### Derived trace and state observations -/

/-- Contribution of an event to the number of simultaneously open
device handles. -/
def evDelta : Ev → Int
  | Ev.acquire _ => 1
  | Ev.release _ => -1
  | _ => 0

/-- Net change of the open-handle count along a trace. -/
def trDelta (l : List Ev) : Int := (l.map evDelta).sum

/-- Number of OS device handles currently held by a thread: one exactly
when its capture exists and is opened. -/
def CameraThread.openHandles (ct : CameraThread) : Nat :=
  match ct.cap with
  | some c => if c.opened then 1 else 0
  | none => 0

/-- Open handles held by the processor's current thread. -/
def PSys.openHandles (s : PSys) : Nat :=
  match s.proc.camera_thread with
  | some ct => ct.openHandles
  | none => 0

/-- `boundedBy b l` checks that, starting from `b` open handles, the
running open-handle count stays within `[0, 1]` after every event of
`l`. -/
def boundedBy : Int → List Ev → Bool
  | _, [] => true
  | b, e :: t =>
    let b1 := b + evDelta e
    decide (0 ≤ b1) && decide (b1 ≤ 1) && boundedBy b1 t

/-- Reachable-state wellformedness of a thread: an active thread holds
an opened capture; an inactive thread holds no device handle (its
capture, if any, is the unopened leftover of a failed start). -/
def CameraThread.wfB (ct : CameraThread) : Bool :=
  match ct.cap with
  | some c => if ct.threadActive then c.opened else !c.opened
  | none => !ct.threadActive

/-- Wellformedness of the processor system. -/
def PSys.wfB (s : PSys) : Bool :=
  match s.proc.camera_thread with
  | some ct => ct.wfB
  | none => true

/-- The `frame_ready_raw`/`frame_ready` emission pairs for a frame
sequence, in read order. -/
def frameEvs : List Nat → List Ev
  | [] => []
  | f :: fs => Ev.frameRaw f :: Ev.frameQt f :: frameEvs fs

/-- Recognise the release of handle `h`. -/
def isReleaseOf (h : Nat) : Ev → Bool
  | Ev.release h2 => h2 == h
  | _ => false

/-- Recognise the acquisition of handle `h`. -/
def isAcquireOf (h : Nat) : Ev → Bool
  | Ev.acquire h2 => h2 == h
  | _ => false

/-- Recognise an `error_occurred` emission. -/
def isErrEv : Ev → Bool
  | Ev.err _ => true
  | _ => false

/-- Recognise a frame delivery (either signal) or an error emission. -/
def isFrameOrErr : Ev → Bool
  | Ev.frameRaw _ => true
  | Ev.frameQt _ => true
  | Ev.err _ => true
  | _ => false

/-- Recognise a `cap.set` configuration event. -/
def isCfgEv : Ev → Bool
  | Ev.cfg _ _ => true
  | _ => false

/-- Recognise the `threadStart` event. -/
def isThreadStart : Ev → Bool
  | Ev.threadStart => true
  | _ => false

/-- Payload of a `frame_ready_raw` emission. -/
def rawFramePayload : Ev → Option Nat
  | Ev.frameRaw f => some f
  | _ => none

/-- A character of the plate letter pool (A–Z without I and O). -/
def isPlateLetter (c : Char) : Bool := plateLetters.contains c

/-- A decimal digit character. -/
def isPlateDigit (c : Char) : Bool := plateDigits.contains c

/-- Shape of an EU plate per the source: three pool letters, a hyphen,
three digits (length 7). -/
def plateShapeEU (s : List Char) : Bool :=
  s.length == 7 && (s.take 3).all isPlateLetter &&
    (s.getD 3 ' ' == '-') && (s.drop 4).all isPlateDigit

/-- Shape of a US plate per the source: four digits then three pool
letters (length 7). -/
def plateShapeUS (s : List Char) : Bool :=
  s.length == 7 && (s.take 4).all isPlateDigit && (s.drop 4).all isPlateLetter

/-- Shape of a plate for any other template: two pool letters then four
digits (length 6). -/
def plateShapeOther (s : List Char) : Bool :=
  s.length == 6 && (s.take 2).all isPlateLetter && (s.drop 2).all isPlateDigit

/-! ### Concrete worlds used as witnesses -/

/-- A system with no openable camera. -/
def wNone : World := { openable := fun _ => false, framesOf := fun _ => [] }

/-- A system where device 0 opens and yields three frames before a read
failure, and device 1 also opens. -/
def wDemo : World :=
  { openable := fun s =>
      match s with
      | Source.device 0 => true
      | Source.device 1 => true
      | _ => false,
    framesOf := fun _ => [10, 20, 30] }

/-! ### Trace arithmetic -/

lemma trDelta_nil : trDelta [] = 0 := rfl

lemma trDelta_cons (e : Ev) (t : List Ev) :
    trDelta (e :: t) = evDelta e + trDelta t := by
  simp [trDelta]

lemma trDelta_append (l1 l2 : List Ev) :
    trDelta (l1 ++ l2) = trDelta l1 + trDelta l2 := by
  simp [trDelta]

lemma boundedBy_append (b : Int) (l1 l2 : List Ev) :
    boundedBy b (l1 ++ l2) = (boundedBy b l1 && boundedBy (b + trDelta l1) l2) := by
  induction l1 generalizing b with
  | nil => simp [boundedBy, trDelta]
  | cons e t ih =>
    simp [boundedBy, ih, trDelta_cons, Bool.and_assoc, add_assoc]

lemma boundedBy_take (l : List Ev) : ∀ (b : Int) (n : Nat), 0 ≤ b → b ≤ 1 →
    boundedBy b l = true →
    0 ≤ b + trDelta (l.take n) ∧ b + trDelta (l.take n) ≤ 1 := by
  induction l with
  | nil =>
    intro b n hb0 hb1 _
    simp [trDelta]
    omega
  | cons e t ih =>
    intro b n hb0 hb1 hB
    simp only [boundedBy, Bool.and_eq_true, decide_eq_true_eq] at hB
    obtain ⟨⟨h1, h2⟩, h3⟩ := hB
    cases n with
    | zero =>
      simp [trDelta]
      omega
    | succ m =>
      have := ih (b + evDelta e) m h1 h2 h3
      simp only [List.take, trDelta_cons]
      omega

/-! ### Frame-event traces -/

lemma countP_frameEvs (p : Ev → Bool) (hraw : ∀ f, p (Ev.frameRaw f) = false)
    (hqt : ∀ f, p (Ev.frameQt f) = false) (fs : List Nat) :
    (frameEvs fs).countP p = 0 := by
  induction fs with
  | nil => simp [frameEvs]
  | cons f r ih => simp [frameEvs, List.countP_cons, hraw, hqt, ih]

lemma filterMap_rawFramePayload_frameEvs (fs : List Nat) :
    (frameEvs fs).filterMap rawFramePayload = fs := by
  induction fs with
  | nil => simp [frameEvs]
  | cons f r ih => simp [frameEvs, rawFramePayload, ih]

lemma trDelta_frameEvs (fs : List Nat) : trDelta (frameEvs fs) = 0 := by
  induction fs with
  | nil => rfl
  | cons f r ih => simp [frameEvs, trDelta_cons, ih, evDelta]

lemma boundedBy_frameEvs (b : Int) (hb0 : 0 ≤ b) (hb1 : b ≤ 1) (fs : List Nat) :
    boundedBy b (frameEvs fs) = true := by
  induction fs with
  | nil => rfl
  | cons f r ih => simp [frameEvs, boundedBy, evDelta, hb0, hb1, ih]

/-! ### Characterisation of `start_streaming` on a fresh thread -/

lemma start_fresh_ok (w : World) (src : Source) (h : Nat)
    (hop : w.openable src = true) :
    (CameraThread.init.set_source src).start_streaming w h =
      ({ running := true,
         cap := some { hid := h, opened := true, frames := w.framesOf src },
         source := src, threadActive := true },
        [Ev.acquire h, Ev.cfg CamProp.frameWidth 1280, Ev.cfg CamProp.frameHeight 720,
         Ev.cfg CamProp.fps 30, Ev.threadStart], true) := by
  simp [CameraThread.start_streaming, CameraThread.init, CameraThread.set_source,
    videoCapture, hop]

lemma start_fresh_fail (w : World) (src : Source) (h : Nat)
    (hop : w.openable src = false) :
    (CameraThread.init.set_source src).start_streaming w h =
      ({ running := false,
         cap := some { hid := h, opened := false, frames := w.framesOf src },
         source := src, threadActive := false },
        [Ev.err (openFailMsg src)], false) := by
  simp [CameraThread.start_streaming, CameraThread.init, CameraThread.set_source,
    videoCapture, hop]

/-! ### Characterisation of the acquisition loop -/

lemma run_complete (fs : List Nat) : ∀ (fuel : Nat) (src : Source) (h : Nat),
    fs.length < fuel →
    CameraThread.run
      { running := true, cap := some { hid := h, opened := true, frames := fs },
        source := src, threadActive := true } fuel =
      ({ running := true, cap := none, source := src, threadActive := false },
        frameEvs fs ++ [Ev.err readFailMsg, Ev.release h]) := by
  induction fs with
  | nil =>
    intro fuel src h hf
    cases fuel with
    | zero => omega
    | succ n => simp [CameraThread.run, Cap.releaseEv, frameEvs]
  | cons f rest ih =>
    intro fuel src h hf
    cases fuel with
    | zero => omega
    | succ n =>
      have hlen : rest.length < n := by
        simp at hf
        omega
      simp [CameraThread.run, frameEvs, ih n src h hlen]

lemma run_partial : ∀ (fuel : Nat) (fs : List Nat) (src : Source) (h : Nat),
    fuel ≤ fs.length →
    CameraThread.run
      { running := true, cap := some { hid := h, opened := true, frames := fs },
        source := src, threadActive := true } fuel =
      ({ running := true, cap := some { hid := h, opened := true, frames := fs.drop fuel },
          source := src, threadActive := true },
        frameEvs (fs.take fuel)) := by
  intro fuel
  induction fuel with
  | zero =>
    intro fs src h _
    simp [CameraThread.run, frameEvs]
  | succ n ih =>
    intro fs src h hle
    cases fs with
    | nil =>
      simp at hle
    | cons f rest =>
      have hlen : n ≤ rest.length := by
        simp at hle
        omega
      simp [CameraThread.run, frameEvs, ih rest src h hlen]

lemma run_inactive (fuel : Nat) (ct : CameraThread) (ha : ct.threadActive = false) :
    ct.run fuel = (ct, []) := by
  cases fuel with
  | zero => rfl
  | succ n => simp [CameraThread.run, ha]

/-! ### Characterisation of `stop_streaming` -/

lemma stop_active_opened (ct : CameraThread) (c : Cap) (hcap : ct.cap = some c)
    (hop : c.opened = true) (ha : ct.threadActive = true) :
    ct.stop_streaming =
      ({ ct with running := false, cap := none, threadActive := false },
        [Ev.release c.hid]) := by
  simp [CameraThread.stop_streaming, ha, CameraThread.run, hcap, hop, Cap.releaseEv]

lemma stop_inactive_none (ct : CameraThread) (ha : ct.threadActive = false)
    (hcap : ct.cap = none) :
    ct.stop_streaming = ({ ct with running := false }, []) := by
  simp [CameraThread.stop_streaming, ha, hcap]

lemma stop_inactive_some (ct : CameraThread) (c : Cap) (ha : ct.threadActive = false)
    (hcap : ct.cap = some c) :
    ct.stop_streaming =
      ({ ct with running := false, cap := none }, c.releaseEv) := by
  simp [CameraThread.stop_streaming, ha, hcap]

lemma stop_result (ct : CameraThread) :
    (ct.stop_streaming).1 =
      { running := false, cap := none, source := ct.source, threadActive := false } ∧
    (ct.stop_streaming).2.countP isFrameOrErr = 0 := by
  obtain ⟨r, cap?, src, act⟩ := ct
  cases act with
  | false =>
    cases cap? with
    | none => simp [stop_inactive_none]
    | some c =>
      rw [stop_inactive_some _ c rfl rfl]
      cases hop : c.opened with
      | false => simp [Cap.releaseEv, hop]
      | true => simp [Cap.releaseEv, hop, List.countP_cons, isFrameOrErr]
  | true =>
    cases cap? with
    | none =>
      constructor
      · simp [CameraThread.stop_streaming, CameraThread.run]
      · simp [CameraThread.stop_streaming, CameraThread.run]
    | some c =>
      cases hop : c.opened with
      | true =>
        rw [stop_active_opened _ c rfl hop rfl]
        simp [List.countP_cons, isFrameOrErr]
      | false =>
        constructor
        · simp [CameraThread.stop_streaming, CameraThread.run, Cap.releaseEv, hop]
        · simp [CameraThread.stop_streaming, CameraThread.run, Cap.releaseEv, hop]

/-! ### Probe-loop lemmas -/

lemma probeLoop_fst (w : World) (h0 : Nat) (l : List Nat) :
    (probeLoop w h0 l).1 = l.filter (fun i => w.openable (Source.device i)) := by
  induction l with
  | nil => rfl
  | cons i rest ih =>
    by_cases hop : w.openable (Source.device i) = true
    · simp [probeLoop, videoCapture, hop, List.filter_cons, ih]
    · simp only [Bool.not_eq_true] at hop
      simp [probeLoop, videoCapture, hop, List.filter_cons, ih]

lemma probeLoop_counts (w : World) (h0 h : Nat) (l : List Nat) :
    (probeLoop w h0 l).2.countP (isAcquireOf h) =
      (probeLoop w h0 l).2.countP (isReleaseOf h) := by
  induction l with
  | nil => rfl
  | cons i rest ih =>
    by_cases hop : w.openable (Source.device i) = true
    · simp [probeLoop, videoCapture, hop, List.countP_cons, isAcquireOf, isReleaseOf, ih]
    · simp only [Bool.not_eq_true] at hop
      simp [probeLoop, videoCapture, hop, ih]

lemma probeLoop_trDelta (w : World) (h0 : Nat) (l : List Nat) :
    trDelta (probeLoop w h0 l).2 = 0 := by
  induction l with
  | nil => rfl
  | cons i rest ih =>
    by_cases hop : w.openable (Source.device i) = true
    · simp [probeLoop, videoCapture, hop, trDelta_cons, evDelta, ih]
    · simp only [Bool.not_eq_true] at hop
      simp [probeLoop, videoCapture, hop, ih]

lemma probeLoop_bounded (w : World) (h0 : Nat) (l : List Nat) :
    boundedBy 0 (probeLoop w h0 l).2 = true := by
  induction l with
  | nil => rfl
  | cons i rest ih =>
    by_cases hop : w.openable (Source.device i) = true
    · simp [probeLoop, videoCapture, hop, boundedBy, evDelta, ih]
    · simp only [Bool.not_eq_true] at hop
      simp [probeLoop, videoCapture, hop, ih]

/-! ### Claim C6 -/

/-- **C6**: `get_available_cameras` probes exactly the device indices 0–9
and returns precisely those whose open succeeded, in ascending order;
with zero openable devices it returns the empty list (no error is
possible: the function is total). -/
theorem get_available_cameras_result (w : World) (h0 : Nat) :
    (CameraThread.get_available_cameras w h0).1 =
      (List.range 10).filter (fun i => w.openable (Source.device i)) ∧
    List.Pairwise (fun a b => a < b) (CameraThread.get_available_cameras w h0).1 ∧
    ((∀ i, w.openable (Source.device i) = false) →
      (CameraThread.get_available_cameras w h0).1 = []) := by
  have hfst : (CameraThread.get_available_cameras w h0).1 =
      (List.range 10).filter (fun i => w.openable (Source.device i)) :=
    probeLoop_fst w h0 (List.range 10)
  refine ⟨hfst, ?_, ?_⟩
  · rw [hfst]
    exact (List.pairwise_lt_range 10).filter _
  · intro hnone
    rw [hfst]
    simp [List.filter_eq_nil_iff, hnone]

/-- Witness for C6 at a world with zero openable devices. -/
theorem get_available_cameras_result_witness :
    (CameraThread.get_available_cameras wNone 0).1 = [] :=
  (get_available_cameras_result wNone 0).2.2 (fun _ => rfl)

/-! ### Claim C7 -/

/-- **C7**: during a `get_available_cameras` scan every device handle
acquired by a probe is released again within the scan (per-handle
acquire and release counts agree and the net open count is zero), and at
no instant is more than one probe handle open.  A probe whose open
attempt fails acquires no device handle, so nothing can leak on that
path either. -/
theorem get_available_cameras_no_leak (w : World) (h0 h : Nat) :
    (CameraThread.get_available_cameras w h0).2.countP (isAcquireOf h) =
      (CameraThread.get_available_cameras w h0).2.countP (isReleaseOf h) ∧
    trDelta (CameraThread.get_available_cameras w h0).2 = 0 ∧
    boundedBy 0 (CameraThread.get_available_cameras w h0).2 = true :=
  ⟨probeLoop_counts w h0 h (List.range 10), probeLoop_trDelta w h0 (List.range 10),
    probeLoop_bounded w h0 (List.range 10)⟩

/-! ### Claim C1 (corrected) -/

/-- **C1** counterexample: on a system with no cameras, `start_streaming`
for device index 0 returns `False` — but, contrary to the claim, the
error consumer *is* invoked: the open-failure path emits exactly one
`error_occurred` signal, so failure is not reported by the return value
only. -/
theorem start_open_failure_emits_error_cex :
    ((CameraThread.init.set_source (Source.device 0)).start_streaming wNone 0).2.2 = false ∧
    ((CameraThread.init.set_source (Source.device 0)).start_streaming wNone 0).2.1.countP
      isErrEv = 1 := by
  constructor
  · rfl
  · rfl

/-- **C1** amended: if opening the source fails, `start_streaming`
returns `False`, the session stays idle (not running, no acquisition
thread started, no device handle held), and the registered error
consumer is invoked exactly once, with the open-failure message. -/
theorem start_open_failure_behavior (w : World) (src : Source) (h : Nat)
    (hop : w.openable src = false) :
    ((CameraThread.init.set_source src).start_streaming w h).2.2 = false ∧
    ((CameraThread.init.set_source src).start_streaming w h).1.running = false ∧
    ((CameraThread.init.set_source src).start_streaming w h).1.threadActive = false ∧
    ((CameraThread.init.set_source src).start_streaming w h).1.openHandles = 0 ∧
    ((CameraThread.init.set_source src).start_streaming w h).2.1 =
      [Ev.err (openFailMsg src)] := by
  simp [start_fresh_fail w src h hop, CameraThread.openHandles]

/-- Witness for the amended C1 at a concrete camera-less system. -/
theorem start_open_failure_behavior_witness :
    wNone.openable (Source.device 0) = false ∧
    ((CameraThread.init.set_source (Source.device 0)).start_streaming wNone 0).1.openHandles
      = 0 :=
  ⟨rfl, (start_open_failure_behavior wNone (Source.device 0) 0 rfl).2.2.2.1⟩

/-! ### Claim C2 -/

/-- **C2**: a session whose source yields the frames `framesOf src` and
then fails delivers, once the loop runs to its failure, exactly the
`frame_ready_raw`/`frame_ready` pairs for those frames in read order,
then exactly one `error_occurred`, and afterwards only the capture
release — no further frame or error event.  The first conjunct pins the
whole trace; the others restate the on-frame order and the single error
notification. -/
theorem run_delivers_frames_in_order_then_single_error (w : World) (src : Source)
    (h fuel : Nat) (hop : w.openable src = true)
    (hfuel : (w.framesOf src).length < fuel) :
    ((((CameraThread.init.set_source src).start_streaming w h).1.run fuel).2 =
      frameEvs (w.framesOf src) ++ [Ev.err readFailMsg, Ev.release h]) ∧
    ((((CameraThread.init.set_source src).start_streaming w h).1.run fuel).2.filterMap
      rawFramePayload = w.framesOf src) ∧
    ((((CameraThread.init.set_source src).start_streaming w h).1.run fuel).2.countP
      isErrEv = 1) := by
  have hstart := start_fresh_ok w src h hop
  have hrun := run_complete (w.framesOf src) fuel src h hfuel
  rw [hstart]
  rw [hrun]
  refine ⟨rfl, ?_, ?_⟩
  · simp [List.filterMap_append, filterMap_rawFramePayload_frameEvs, rawFramePayload]
  · simp [List.countP_append, countP_frameEvs isErrEv (fun _ => rfl) (fun _ => rfl),
      List.countP_cons, isErrEv]

/-- Witness for C2: device 0 of `wDemo` yields frames 10, 20, 30 and
then fails on the fourth read. -/
theorem run_delivers_frames_witness :
    ((((CameraThread.init.set_source (Source.device 0)).start_streaming wDemo 5).1.run 4).2 =
      frameEvs [10, 20, 30] ++ [Ev.err readFailMsg, Ev.release 5]) :=
  (run_delivers_frames_in_order_then_single_error wDemo (Source.device 0) 5 4
    (by rfl) (by decide)).1

/-! ### Claim C9 -/

/-- **C9**: when the open succeeds, `start_streaming` applies the target
width (1280), height (720) and frame rate (30) as `cap.set` hints —
whose boolean results the code ignores, so no unsupported option can
fail the call — after acquiring the handle and before the acquisition
thread starts, returns `True` and enters the running state; when the
open fails, no configuration is applied, no thread is started, and the
call returns `False`. -/
theorem start_streaming_applies_config (w : World) (src : Source) (h : Nat) :
    (w.openable src = true →
      ((CameraThread.init.set_source src).start_streaming w h).2.1 =
        [Ev.acquire h, Ev.cfg CamProp.frameWidth 1280, Ev.cfg CamProp.frameHeight 720,
         Ev.cfg CamProp.fps 30, Ev.threadStart] ∧
      ((CameraThread.init.set_source src).start_streaming w h).2.2 = true ∧
      ((CameraThread.init.set_source src).start_streaming w h).1.running = true ∧
      ((CameraThread.init.set_source src).start_streaming w h).1.threadActive = true) ∧
    (w.openable src = false →
      ((CameraThread.init.set_source src).start_streaming w h).2.1.countP isCfgEv = 0 ∧
      ((CameraThread.init.set_source src).start_streaming w h).2.1.countP isThreadStart = 0 ∧
      ((CameraThread.init.set_source src).start_streaming w h).2.2 = false ∧
      ((CameraThread.init.set_source src).start_streaming w h).1.threadActive = false) := by
  constructor
  · intro hop
    simp [start_fresh_ok w src h hop]
  · intro hop
    simp [start_fresh_fail w src h hop, List.countP_cons, isCfgEv, isThreadStart]

/-- Witness for C9 at an openable device. -/
theorem start_streaming_applies_config_witness :
    ((CameraThread.init.set_source (Source.device 0)).start_streaming wDemo 5).2.1 =
      [Ev.acquire 5, Ev.cfg CamProp.frameWidth 1280, Ev.cfg CamProp.frameHeight 720,
       Ev.cfg CamProp.fps 30, Ev.threadStart] :=
  ((start_streaming_applies_config wDemo (Source.device 0) 5).1 (by rfl)).1

/-! ### Claim C4 -/

/-- **C4**: once `stop_streaming` returns, the session is idle — the
`running` flag is cleared, the capture is gone, the acquisition thread
has fully exited and no device handle is held — and no further frame or
error notification can ever be produced for this session: any further
scheduling of the loop does nothing and emits nothing, and a further
stop emits nothing. -/
theorem stop_streaming_silences_session (ct : CameraThread) (fuel : Nat) :
    (ct.stop_streaming).1.running = false ∧
    (ct.stop_streaming).1.cap = none ∧
    (ct.stop_streaming).1.threadActive = false ∧
    (ct.stop_streaming).1.openHandles = 0 ∧
    ((ct.stop_streaming).1.run fuel) = ((ct.stop_streaming).1, []) ∧
    ((ct.stop_streaming).1.stop_streaming).2 = [] := by
  obtain ⟨hstate, -⟩ := stop_result ct
  rw [hstate]
  exact ⟨rfl, rfl, rfl, rfl, run_inactive fuel _ rfl, rfl⟩

/-! ### Claim C5 -/

/-- **C5**: for a session that successfully opened its source, the
acquired device handle is acquired exactly once and released exactly
once over the whole session history — start, any amount of loop
progress (`fuel` covers every interleaving: stop before any read, stop
mid-stream, or the loop's own read-failure exit), then stop.  Whichever
of the loop-exit path or the stop path releases the handle, the other
does not release it again. -/
theorem handle_released_exactly_once (w : World) (src : Source) (h fuel : Nat)
    (hop : w.openable src = true) :
    (((CameraThread.init.set_source src).start_streaming w h).2.1 ++
      ((((CameraThread.init.set_source src).start_streaming w h).1).run fuel).2 ++
      (((((CameraThread.init.set_source src).start_streaming w h).1).run fuel).1.stop_streaming).2).countP
        (isReleaseOf h) = 1 ∧
    (((CameraThread.init.set_source src).start_streaming w h).2.1 ++
      ((((CameraThread.init.set_source src).start_streaming w h).1).run fuel).2 ++
      (((((CameraThread.init.set_source src).start_streaming w h).1).run fuel).1.stop_streaming).2).countP
        (isAcquireOf h) = 1 := by
  have hstart := start_fresh_ok w src h hop
  rcases le_or_lt fuel (w.framesOf src).length with hle | hlt
  · have hrun := run_partial fuel (w.framesOf src) src h hle
    have hstop := stop_active_opened
      { running := true,
        cap := some { hid := h, opened := true, frames := (w.framesOf src).drop fuel },
        source := src, threadActive := true }
      { hid := h, opened := true, frames := (w.framesOf src).drop fuel } rfl rfl rfl
    simp only [hstart, hrun, hstop]
    constructor <;>
      simp [List.countP_append, List.countP_cons, isReleaseOf, isAcquireOf,
        countP_frameEvs (isReleaseOf h) (fun _ => rfl) (fun _ => rfl),
        countP_frameEvs (isAcquireOf h) (fun _ => rfl) (fun _ => rfl)]
  · have hrun := run_complete (w.framesOf src) fuel src h hlt
    have hstop := stop_inactive_none
      { running := true, cap := none, source := src, threadActive := false } rfl rfl
    simp only [hstart, hrun, hstop]
    constructor <;>
      simp [List.countP_append, List.countP_cons, isReleaseOf, isAcquireOf, isErrEv,
        countP_frameEvs (isReleaseOf h) (fun _ => rfl) (fun _ => rfl),
        countP_frameEvs (isAcquireOf h) (fun _ => rfl) (fun _ => rfl)]

/-- Witness for C5: a session on `wDemo` device 0 that gets stopped
after one loop iteration. -/
theorem handle_released_exactly_once_witness :
    (((CameraThread.init.set_source (Source.device 0)).start_streaming wDemo 5).2.1 ++
      ((((CameraThread.init.set_source (Source.device 0)).start_streaming wDemo 5).1).run 1).2 ++
      (((((CameraThread.init.set_source (Source.device 0)).start_streaming wDemo 5).1).run 1).1.stop_streaming).2).countP
        (isReleaseOf 5) = 1 :=
  (handle_released_exactly_once wDemo (Source.device 0) 5 1 (by rfl)).1

/-! ### Claim C8 -/

/-- **C8**: `stop_streaming` is idempotent.  On an idle session (not
running, no capture, no live thread) it is a literal no-op returning the
state unchanged with no events; for every session, a second stop after a
first one changes nothing and emits nothing; and no stop call ever
produces a frame or error notification. -/
theorem stop_streaming_idempotent (ct : CameraThread)
    (hr : ct.running = false) (hc : ct.cap = none) (ha : ct.threadActive = false) :
    ct.stop_streaming = (ct, []) ∧
    (∀ ct2 : CameraThread,
      ((ct2.stop_streaming).1.stop_streaming) = ((ct2.stop_streaming).1, [])) ∧
    (∀ ct2 : CameraThread, (ct2.stop_streaming).2.countP isFrameOrErr = 0) := by
  refine ⟨?_, ?_, fun ct2 => (stop_result ct2).2⟩
  · obtain ⟨r, cap?, src, act⟩ := ct
    simp only at hr hc ha
    subst hr
    subst hc
    subst ha
    rfl
  · intro ct2
    obtain ⟨hstate, -⟩ := stop_result ct2
    rw [hstate]
    rfl

/-- Witness for C8 at the freshly constructed thread. -/
theorem stop_streaming_idempotent_witness :
    CameraThread.init.stop_streaming = (CameraThread.init, []) :=
  (stop_streaming_idempotent CameraThread.init rfl rfl rfl).1

/-! ### System-level handle invariant (claim C3) -/

lemma wfB_openHandles_of_inactive (ct : CameraThread) (hwf : ct.wfB = true)
    (ha : ct.threadActive = false) : ct.openHandles = 0 := by
  obtain ⟨r, cap?, src, act⟩ := ct
  simp only at ha
  subst ha
  cases cap? with
  | none => rfl
  | some c =>
    simp only [CameraThread.wfB, if_neg] at hwf
    simp at hwf
    simp [CameraThread.openHandles, hwf]

lemma run_invariant (fuel : Nat) : ∀ (ct : CameraThread), ct.wfB = true →
    ((ct.run fuel).1.wfB = true ∧
     boundedBy (ct.openHandles : Int) (ct.run fuel).2 = true ∧
     (((ct.run fuel).1.openHandles : Int) =
       (ct.openHandles : Int) + trDelta (ct.run fuel).2)) := by
  induction fuel with
  | zero =>
    intro ct hwf
    simp [CameraThread.run, boundedBy, trDelta, hwf]
  | succ n ih =>
    intro ct hwf
    obtain ⟨r, cap?, src, act⟩ := ct
    cases act with
    | false =>
      simp only [CameraThread.run, Bool.false_eq_true, if_neg, ite_false]
      simp [boundedBy, trDelta, hwf]
    | true =>
      cases cap? with
      | none => simp [CameraThread.wfB] at hwf
      | some c =>
        have hop : c.opened = true := by
          simpa [CameraThread.wfB] using hwf
        obtain ⟨hid, op, fs⟩ := c
        simp only at hop
        subst hop
        cases r with
        | false =>
          simp [CameraThread.run, CameraThread.wfB, CameraThread.openHandles,
            Cap.releaseEv, boundedBy, trDelta_cons, trDelta, evDelta]
        | true =>
          cases fs with
          | nil =>
            simp [CameraThread.run, CameraThread.wfB, CameraThread.openHandles,
              Cap.releaseEv, boundedBy, trDelta_cons, trDelta, evDelta]
          | cons f rest =>
            have hwf1 : CameraThread.wfB { running := true, cap := some { hid := hid, opened := true, frames := rest }, source := src, threadActive := true } = true := by
              simp [CameraThread.wfB]
            have hstep := ih _ hwf1
            simp only [CameraThread.openHandles] at hstep ⊢
            simp only [CameraThread.run]
            simp only [if_true, ite_true]
            refine ⟨hstep.1, ?_, ?_⟩
            · simp [boundedBy, evDelta]
              simpa using hstep.2.1
            · simp [trDelta_cons, evDelta]
              have := hstep.2.2
              simp at this
              omega

lemma stop_invariant (ct : CameraThread) (hwf : ct.wfB = true) :
    (ct.stop_streaming).1.wfB = true ∧
    boundedBy (ct.openHandles : Int) (ct.stop_streaming).2 = true ∧
    trDelta (ct.stop_streaming).2 = -(ct.openHandles : Int) ∧
    (ct.stop_streaming).1.openHandles = 0 := by
  obtain ⟨r, cap?, src, act⟩ := ct
  cases act with
  | false =>
    cases cap? with
    | none =>
      rw [stop_inactive_none _ rfl rfl]
      simp [CameraThread.wfB, CameraThread.openHandles, boundedBy, trDelta]
    | some c =>
      have hop : c.opened = false := by
        simpa [CameraThread.wfB] using hwf
      rw [stop_inactive_some _ c rfl rfl]
      simp [Cap.releaseEv, hop, CameraThread.wfB, CameraThread.openHandles, boundedBy, trDelta]
  | true =>
    cases cap? with
    | none => simp [CameraThread.wfB] at hwf
    | some c =>
      have hop : c.opened = true := by
        simpa [CameraThread.wfB] using hwf
      rw [stop_active_opened _ c rfl hop rfl]
      simp [CameraThread.wfB, CameraThread.openHandles, hop, boundedBy,
        trDelta_cons, trDelta, evDelta]

lemma start_fresh_invariant (w : World) (src : Source) (h : Nat) :
    ((CameraThread.init.set_source src).start_streaming w h).1.wfB = true ∧
    boundedBy 0 ((CameraThread.init.set_source src).start_streaming w h).2.1 = true ∧
    ((((CameraThread.init.set_source src).start_streaming w h).1.openHandles : Int) =
      trDelta ((CameraThread.init.set_source src).start_streaming w h).2.1) := by
  cases hop : w.openable src with
  | true =>
    rw [start_fresh_ok w src h hop]
    simp [CameraThread.wfB, CameraThread.openHandles, boundedBy, evDelta,
      trDelta_cons, trDelta]
  | false =>
    rw [start_fresh_fail w src h hop]
    simp [CameraThread.wfB, CameraThread.openHandles, boundedBy, evDelta,
      trDelta_cons, trDelta]

lemma step_invariant (w : World) (s : PSys) (c : PCmd) (hwf : s.wfB = true) :
    (s.step w c).1.wfB = true ∧
    boundedBy (s.openHandles : Int) (s.step w c).2 = true ∧
    (((s.step w c).1.openHandles : Int) = (s.openHandles : Int) + trDelta (s.step w c).2) := by
  cases c with
  | runThread fuel =>
    cases hct : s.proc.camera_thread with
    | none =>
      simp only [PSys.step, PSys.advanceThread, hct]
      simp [boundedBy, trDelta, hwf]
    | some ct =>
      have hctwf : ct.wfB = true := by
        simpa [PSys.wfB, hct] using hwf
      have hrun := run_invariant fuel ct hctwf
      simp only [PSys.step, PSys.advanceThread, hct]
      refine ⟨by simpa [PSys.wfB] using hrun.1, ?_, ?_⟩
      · simpa [PSys.openHandles, hct] using hrun.2.1
      · simpa [PSys.openHandles, hct] using hrun.2.2
  | stopStream =>
    cases hct : s.proc.camera_thread with
    | none =>
      simp only [PSys.step, PSys.stop_stream, hct]
      simp [boundedBy, trDelta, hwf]
    | some ct =>
      have hctwf : ct.wfB = true := by
        simpa [PSys.wfB, hct] using hwf
      cases hact : ct.threadActive with
      | false =>
        simp only [PSys.step, PSys.stop_stream, hct, hact]
        simp [boundedBy, trDelta, hwf]
      | true =>
        have hstop := stop_invariant ct hctwf
        simp only [PSys.step, PSys.stop_stream, hct, hact]
        refine ⟨by simp [PSys.wfB], ?_, ?_⟩
        · simpa [PSys.openHandles, hct] using hstop.2.1
        · have := hstop.2.2.1
          simp only [PSys.openHandles, PSys.wfB, hct]
          simp [this]
  | startStream src =>
    have hnew := start_fresh_invariant w src s.nextH
    cases hct : s.proc.camera_thread with
    | none =>
      simp only [PSys.step, PSys.start_stream, hct]
      refine ⟨by simpa [PSys.wfB] using hnew.1, ?_, ?_⟩
      · simpa [PSys.openHandles, hct] using hnew.2.1
      · simp only [PSys.openHandles, hct]
        simp [hnew.2.2]
    | some ct =>
      have hctwf : ct.wfB = true := by
        simpa [PSys.wfB, hct] using hwf
      cases hact : ct.threadActive with
      | false =>
        have hzero : ct.openHandles = 0 := wfB_openHandles_of_inactive ct hctwf hact
        simp only [PSys.step, PSys.start_stream, hct, hact]
        refine ⟨by simpa [PSys.wfB] using hnew.1, ?_, ?_⟩
        · simpa [PSys.openHandles, hct, hzero] using hnew.2.1
        · simp only [PSys.openHandles, hct, hzero]
          simp [hnew.2.2]
      | true =>
        have hstop := stop_invariant ct hctwf
        simp only [PSys.step, PSys.start_stream, hct, hact, eq_self_iff_true, if_true]
        have hoh : s.openHandles = ct.openHandles := by
          simp [PSys.openHandles, hct]
        have hb2 : ((s.openHandles : Nat) : Int) + trDelta (ct.stop_streaming).2 = 0 := by
          have := hstop.2.2.1
          rw [hoh]
          omega
        refine ⟨by simpa [PSys.wfB] using hnew.1, ?_, ?_⟩
        · rw [boundedBy_append]
          have hb1 : boundedBy ((s.openHandles : Nat) : Int) (ct.stop_streaming).2 = true := by
            rw [hoh]
            exact hstop.2.1
          rw [hb1, hb2]
          simpa using hnew.2.1
        · rw [trDelta_append]
          have h1 := hnew.2.2
          have h2 := hstop.2.2.1
          simp [PSys.openHandles, hct]
          omega

lemma runCmds_invariant (w : World) (cmds : List PCmd) : ∀ (s : PSys), s.wfB = true →
    (s.runCmds w cmds).1.wfB = true ∧
    boundedBy (s.openHandles : Int) (s.runCmds w cmds).2 = true ∧
    (((s.runCmds w cmds).1.openHandles : Int) =
      (s.openHandles : Int) + trDelta (s.runCmds w cmds).2) := by
  induction cmds with
  | nil =>
    intro s h
    simp [PSys.runCmds, boundedBy, trDelta, h]
  | cons c cs ih =>
    intro s hswf
    have h1 := step_invariant w s c hswf
    have h2 := ih (s.step w c).1 h1.1
    simp only [PSys.runCmds]
    refine ⟨h2.1, ?_, ?_⟩
    · rw [boundedBy_append, h1.2.1]
      have hbase : (s.openHandles : Int) + trDelta (s.step w c).2 =
          (((s.step w c).1.openHandles : Nat) : Int) := (h1.2.2).symm
      rw [hbase]
      simpa using h2.2.1
    · rw [trDelta_append]
      have ha := h1.2.2
      have hb := h2.2.2
      omega

/-! ### Claim C3 -/

/-- **C3**: along every sequence of `start_stream`/`stop_stream` calls
and scheduler steps of the acquisition loop, at every instant (every
prefix of the observable event trace) the number of simultaneously open
device handles is between 0 and 1: starting while a prior session is
active releases the prior handle (via the forced synchronous stop)
before the new source's handle is acquired, so no two handles are ever
open at once. -/
theorem at_most_one_open_handle (w : World) (cmds : List PCmd) (n : Nat) :
    0 ≤ trDelta (((PSys.init.runCmds w cmds).2).take n) ∧
    trDelta (((PSys.init.runCmds w cmds).2).take n) ≤ 1 := by
  have hinv := runCmds_invariant w cmds PSys.init rfl
  have hb : boundedBy 0 ((PSys.init.runCmds w cmds).2) = true := by
    simpa [PSys.openHandles, PSys.init, ANPRProcessor.init] using hinv.2.1
  have := boundedBy_take ((PSys.init.runCmds w cmds).2) 0 n (by omega) (by omega) hb
  simpa using this

/-! ### Plate-generation lemmas (claim C10) -/

lemma npChoice_length (pool : List Char) (rng : Nat → Nat) (start n : Nat) :
    (npChoice pool rng start n).length = n := by
  simp [npChoice]

lemma npChoice_all (pool : List Char) (rng : Nat → Nat) (start n : Nat)
    (hp : 0 < pool.length) (p : Char → Bool) (hpool : ∀ c ∈ pool, p c = true) :
    (npChoice pool rng start n).all p = true := by
  rw [List.all_eq_true]
  intro c hc
  simp only [npChoice, List.mem_map, List.mem_range] at hc
  obtain ⟨j, hj, rfl⟩ := hc
  have hlt : rng (start + j) % pool.length < pool.length := Nat.mod_lt _ hp
  rw [List.getD_eq_getElem pool 'A' hlt]
  exact hpool _ (List.getElem_mem hlt)

lemma plateShapeEU_of (L N : List Char) (hL : L.length = 3) (hN : N.length = 3)
    (hLa : L.all isPlateLetter = true) (hNa : N.all isPlateDigit = true) :
    plateShapeEU (L ++ '-' :: N) = true := by
  obtain ⟨a, b, c, rfl⟩ := List.length_eq_three.mp hL
  simp only [List.all_cons, List.all_nil, Bool.and_eq_true, Bool.and_true] at hLa
  simp [plateShapeEU, hN, hLa, hNa, List.getD]

lemma plateShapeUS_of (N L : List Char) (hN : N.length = 4) (hL : L.length = 3)
    (hNa : N.all isPlateDigit = true) (hLa : L.all isPlateLetter = true) :
    plateShapeUS (N ++ L) = true := by
  simp [plateShapeUS, List.take_left' hN, List.drop_left' hN, hNa, hLa,
    List.length_append, hN, hL]

lemma plateShapeOther_of (L N : List Char) (hL : L.length = 2) (hN : N.length = 4)
    (hLa : L.all isPlateLetter = true) (hNa : N.all isPlateDigit = true) :
    plateShapeOther (L ++ N) = true := by
  simp [plateShapeOther, List.take_left' hL, List.drop_left' hL, hNa, hLa,
    List.length_append, hN, hL]

lemma toList_mk_dash_mk (a b : List Char) :
    (String.mk a ++ "-" ++ String.mk b).toList = a ++ '-' :: b := by
  have h : (String.mk a ++ "-" ++ String.mk b).toList = (a ++ ['-']) ++ b := rfl
  rw [h]
  simp

lemma toList_mk_mk (a b : List Char) :
    (String.mk a ++ String.mk b).toList = a ++ b := rfl

/-! ### Claim C10 -/

/-- **C10**: the shape of every generated plate is fixed by the
template: the letter pool is the 24-letter uppercase alphabet without
`I` and `O`; with template `"EU"` the plate is three pool letters, a
hyphen and three digits (length 7); with `"US"` four digits followed by
three pool letters (length 7); with any other template two pool letters
followed by four digits (length 6). -/
theorem generate_random_plate_shape (p : ANPRProcessor) (rng : Nat → Nat) :
    plateLetters.length = 24 ∧ ('I' ∈ plateLetters → False) ∧
    ('O' ∈ plateLetters → False) ∧
    (p.country_template = "EU" →
      plateShapeEU (p.generate_random_plate rng).toList = true) ∧
    (p.country_template = "US" →
      plateShapeUS (p.generate_random_plate rng).toList = true) ∧
    (p.country_template ≠ "EU" → p.country_template ≠ "US" →
      plateShapeOther (p.generate_random_plate rng).toList = true) := by
  refine ⟨by decide, by decide, by decide, ?_, ?_, ?_⟩
  · intro hEU
    unfold ANPRProcessor.generate_random_plate
    rw [if_pos hEU]
    rw [toList_mk_dash_mk]
    exact plateShapeEU_of _ _ (npChoice_length plateLetters rng 0 3)
      (npChoice_length plateDigits rng 3 3)
      (npChoice_all plateLetters rng 0 3 (by decide) isPlateLetter (by decide))
      (npChoice_all plateDigits rng 3 3 (by decide) isPlateDigit (by decide))
  · intro hUS
    unfold ANPRProcessor.generate_random_plate
    rw [if_neg (by simp [hUS]), if_pos hUS]
    rw [toList_mk_mk]
    exact plateShapeUS_of _ _ (npChoice_length plateDigits rng 3 4)
      (npChoice_length plateLetters rng 0 3)
      (npChoice_all plateDigits rng 3 4 (by decide) isPlateDigit (by decide))
      (npChoice_all plateLetters rng 0 3 (by decide) isPlateLetter (by decide))
  · intro hEU hUS
    unfold ANPRProcessor.generate_random_plate
    rw [if_neg hEU, if_neg hUS]
    rw [toList_mk_mk]
    exact plateShapeOther_of _ _ (npChoice_length plateLetters rng 0 2)
      (npChoice_length plateDigits rng 2 4)
      (npChoice_all plateLetters rng 0 2 (by decide) isPlateLetter (by decide))
      (npChoice_all plateDigits rng 2 4 (by decide) isPlateDigit (by decide))

/-- Witness for C10 at the default template `"EU"` and a constant
random stream. -/
theorem generate_random_plate_shape_witness :
    plateShapeEU ((ANPRProcessor.init.generate_random_plate (fun _ => 0)).toList) = true :=
  (generate_random_plate_shape ANPRProcessor.init (fun _ => 0)).2.2.2.1 rfl
